import Mathlib

/-!
Verification development for the RAG ingestion-and-retrieval pipeline
(`src/backend/chunker.py`, `src/backend/chroma_dal.py`, `src/backend/rag_service.py`).

The Python code is shallowly embedded: pure functions become Lean functions,
the vector index store becomes an explicit `Store` state threaded through the
operations, fallible calls return `Except`, and external collaborators
(blob storage, the embedding provider, the distance metric of the vector
store, the generation client) are fields of a `Deps` record so that concrete
instantiations can be evaluated.  Floating-point scores and distances are
embedded as rationals.
-/

deriving instance DecidableEq for Except

/-- Embedding vectors (`list[float]` in the source), embedded as lists of rationals. -/
abbrev Vec := List ℚ

/-- Error taxonomy of the pipeline.  `readError` models a blob download
failure, `parseError` a `pandas.read_csv` failure, `rateLimit` the OpenAI
`RateLimitError`, `apiError` any other provider error, `nameError` Python's
`UnboundLocalError` (a local variable read before assignment), `addMismatch`
ChromaDB's validation error when `ids`/`embeddings`/`documents`/`metadatas`
have different lengths, and `retryExhausted` tenacity's `RetryError`. -/
inductive RagErr where
  | readError
  | parseError
  | rateLimit
  | apiError
  | nameError
  | addMismatch
  | retryExhausted
deriving DecidableEq

/-- Per-entry metadata written by `RAGService.ingest_csv_blob`
(`{"username": ..., "file_name": ..., "chunk_no": ...}`). -/
structure EntryMeta where
  username : String
  file_name : String
  chunk_no : Nat
deriving DecidableEq

/-- One stored entry of a collection: id, embedding vector, document text, metadata. -/
structure Entry where
  id : String
  embedding : Vec
  document : String
  metadata : EntryMeta
deriving DecidableEq

/-- Collection-level metadata passed by `ChromaDAL.get_or_create_collection`. -/
structure CollectionMeta where
  username : String
  file_name : String
deriving DecidableEq

/-- A ChromaDB collection: its name, creation metadata, and stored entries. -/
structure Collection where
  name : String
  metadata : CollectionMeta
  entries : List Entry
deriving DecidableEq

/-- The vector index store: the list of collections, in creation order
(`chromadb.Client.list_collections`). -/
abbrev Store := List Collection

/-- A reformatted search result of `ChromaDAL.vector_search_user`:
`{"document": doc, "metadata": meta, "score": 1 - dist}`. -/
structure SearchResult where
  document : String
  metadata : EntryMeta
  score : ℚ
deriving DecidableEq

/-- External collaborators of the pipeline.  `embedAt n t` is the outcome of
the `n`-th (0-based) `embeddings.create` call made by one `ingest_csv_blob`
invocation on input `t`; `queryEmbed` is the query-side `embeddings.create`
call of `answer_with_rag`; `dist` is the vector store's distance metric;
`llm` is `LLMService.answer_with_context`. -/
structure Deps where
  readBlob : String → Except RagErr String
  parseCsv : String → Except RagErr (List String × List (List String))
  embedAt : Nat → String → Except RagErr Vec
  queryEmbed : String → Except RagErr Vec
  dist : Vec → Vec → ℚ
  llm : String → String → String

/- ----------------------------------------------------------------
Collection naming (`ChromaDAL._user_collection_name`).
Python string operations are embedded at the character-list level:
`str.strip` is `stripChars`, and `str.replace` with a single-character
pattern is a character map.
---------------------------------------------------------------- -/

/-- The characters kept by the file-name sanitizer:
`e.isalnum() or e in ['_', '-']`. -/
def keepChar (c : Char) : Bool := c.isAlphanum || c = '_' || c = '-'

/-- Python `str.strip()`: drop whitespace from both ends. -/
def stripChars (l : List Char) : List Char :=
  ((l.dropWhile Char.isWhitespace).reverse.dropWhile Char.isWhitespace).reverse

/-- Source: `safe_name = ''.join(e for e in file_name if e.isalnum() or e in ['_', '-']).strip().replace(' ', '_')` -/
def sanitizeFileName (f : String) : String :=
  ((stripChars (f.toList.filter keepChar)).map (fun c => if c = ' ' then '_' else c)).asString

/-- Source: `safe_user = username.strip().lower().replace("@", "_").replace(" ", "_")`
(the two single-character replaces compose into one character map). -/
def sanitizeUser (u : String) : String :=
  (((stripChars u.toList).map Char.toLower).map
      (fun c => if c = '@' then '_' else if c = ' ' then '_' else c)).asString

/-- Source: `return f"{safe_user}_{safe_name}"[:63]` -/
def user_collection_name (u f : String) : String :=
  (sanitizeUser u ++ "_" ++ sanitizeFileName f).take 63

/-- The user prefix used by `vector_search_user`:
`self._user_collection_name(username, "")[:-1]`. -/
def userSearchPref (username : String) : String :=
  (user_collection_name username "").dropRight 1

/-- Python `s.startswith(pre)`, embedded at the character-list level. -/
def strStartsWith (s pre : String) : Bool :=
  pre.toList.isPrefixOf s.toList

/- ----------------------------------------------------------------
Chunker (`backend/chunker.py`, `csv_rows_to_chunks`).
`pandas.read_csv` is abstracted into `Deps.parseCsv`; the chunker is
embedded over the parsed frame (ordered column list + rows).
---------------------------------------------------------------- -/

/-- Source `row_to_text`: `"; ".join(f"{c}: {row[c]}" for c in cols)`.
A row is the list of its column values, parallel to `cols`. -/
def row_to_text (cols : List String) (row : List String) : String :=
  String.intercalate "; " ((cols.zip row).map (fun p => p.1 ++ ": " ++ p.2))

/-- The row-grouping loop of `csv_rows_to_chunks`: rows are appended to a
buffer `buf`, which is flushed once `len(buf) >= rows_per_chunk`; a trailing
non-empty buffer is flushed at the end.  The newline join applied at each
flush in the source commutes with the accumulation and is factored into the
final `map` in `csv_rows_to_chunks` below. -/
def chunkLoop (r : Int) : List (List String) → List String → List String → List (List String)
  | chunks, buf, [] => if buf = [] then chunks else chunks ++ [buf]
  | chunks, buf, t :: rest =>
    if r ≤ (((buf ++ [t]).length : Int)) then chunkLoop r (chunks ++ [buf ++ [t]]) [] rest
    else chunkLoop r chunks (buf ++ [t]) rest

/-- The row groups produced by the chunking loop, starting from empty state. -/
def chunkGroups (r : Int) (rows : List String) : List (List String) :=
  chunkLoop r [] [] rows

/-- The chunker `csv_rows_to_chunks` after parsing: serialize each row, group rows,
join each group with newlines.  `rows_per_chunk` is a Python `int`, hence `Int`. -/
def csv_rows_to_chunks (cols : List String) (rows : List (List String))
    (rows_per_chunk : Int) : List String :=
  (chunkGroups rows_per_chunk (rows.map (row_to_text cols))).map (String.intercalate "\n")

/-- Reference grouping by repeated take/drop, used to reason about the loop:
the head group takes `r` elements (at least one), the rest are grouped
recursively.  For `r = 0` every group is a singleton. -/
def takeDropGroups (r : Nat) : List α → List (List α)
  | [] => []
  | x :: xs => (x :: xs.take (r - 1)) :: takeDropGroups r (xs.drop (r - 1))
termination_by l => l.length
decreasing_by simp [List.length_drop]; omega

/- ----------------------------------------------------------------
Vector index store operations (`ChromaDAL`).
---------------------------------------------------------------- -/

/-- Embeds `ChromaDAL.get_or_create_collection`: resolve the deterministic name;
return the existing collection if present (its stored metadata untouched),
else create an empty one with `{"username": ..., "file_name": ...}` metadata. -/
def get_or_create_collection (store : Store) (username file_name : String) :
    Collection × Store :=
  let name := user_collection_name username file_name
  match store.find? (fun c => c.name == name) with
  | some c => (c, store)
  | none =>
    let c : Collection := ⟨name, ⟨username, file_name⟩, []⟩
    (c, store ++ [c])

/-- Modelled from the spec: ChromaDB `Collection.add` for a single entry
(vendor library, not under `src/`).  Per the spec (§4.3, upsert) and the
source's NOTE ("The add method will overwrite documents with the same ID,
effectively upserting"), an entry whose id already exists is fully replaced
in place; otherwise it is appended. -/
def addEntry (c : Collection) (e : Entry) : Collection :=
  if c.entries.any (fun x => x.id == e.id) then
    { c with entries := c.entries.map (fun x => if x.id == e.id then e else x) }
  else
    { c with entries := c.entries ++ [e] }

/-- Bulk form of `addEntry`, in entry order. -/
def addEntries (c : Collection) (es : List Entry) : Collection :=
  es.foldl addEntry c

/-- The store update performed by an add call on the collection named `nm`:
that collection receives the entries, all others are untouched. -/
def updColl (nm : String) (E : List Entry) (c : Collection) : Collection :=
  if c.name == nm then addEntries c E else c

/-- Distance ordering on entries for a fixed query vector, used by
`collection.query` to rank entries (ascending distance). -/
def distLe (deps : Deps) (qv : Vec) (e1 e2 : Entry) : Prop :=
  deps.dist qv e1.embedding ≤ deps.dist qv e2.embedding

instance (deps : Deps) (qv : Vec) : DecidableRel (distLe deps qv) := fun e1 e2 =>
  inferInstanceAs (Decidable (deps.dist qv e1.embedding ≤ deps.dist qv e2.embedding))

/-- Modelled from the spec: ChromaDB `collection.query` with
`n_results = k` (vendor library, not under `src/`) returns the `k` nearest
entries by ascending distance; `vector_search_user` then reformats each hit
as `{"document": doc, "metadata": meta, "score": 1 - dist}`. -/
def queryCollection (deps : Deps) (qv : Vec) (k : Nat) (c : Collection) :
    List SearchResult :=
  ((c.entries.insertionSort (distLe deps qv)).take k).map
    (fun e => ⟨e.document, e.metadata, 1 - deps.dist qv e.embedding⟩)

/-- Descending-score ordering used by `results.sort(key=lambda x: x['score'], reverse=True)`. -/
def scoreGe (a b : SearchResult) : Prop := b.score ≤ a.score

instance : DecidableRel scoreGe := fun a b =>
  inferInstanceAs (Decidable (b.score ≤ a.score))

/-- Embeds `ChromaDAL.vector_search_user`: query every collection whose name starts
with the user's sanitized prefix, gather the reformatted hits in collection
order, sort descending by score (a stable sort, as Python's), truncate to `k`. -/
def vector_search_user (deps : Deps) (store : Store) (username : String)
    (qv : Vec) (k : Nat) : List SearchResult :=
  let gathered :=
    (store.filter (fun c => strStartsWith c.name (userSearchPref username))).flatMap
      (queryCollection deps qv k)
  (gathered.insertionSort scoreGe).take k

/- ----------------------------------------------------------------
Ingestion (`RAGService.ingest_csv_blob`).
---------------------------------------------------------------- -/

/-- Result dict of `ingest_csv_blob`:
`{"collection_name": ..., "chunks_uploaded": len(texts)}`. -/
structure IngestResult where
  collection_name : String
  chunks_uploaded : Nat
deriving DecidableEq

/-- The per-chunk loop of `ingest_csv_blob` (`for i, text in enumerate(chunks, start=1)`):
each chunk is embedded (`embeddings.create`; the `n`-th call of this
invocation is `deps.embedAt n`), and `texts`, `metadatas`, `ids` are
extended.  The local `vec` is rebound on every iteration, so only the last
chunk's vector survives the loop; it is `none` when the loop body never ran. -/
def ingestLoop (deps : Deps) (username blob_name : String) :
    List String → Nat → List String × List EntryMeta × List String × Option Vec →
    Except RagErr (List String × List EntryMeta × List String × Option Vec)
  | [], _, acc => .ok acc
  | t :: ts, i, (texts, metas, ids, _) =>
    match deps.embedAt (i - 1) t with
    | .error e => .error e
    | .ok v =>
      ingestLoop deps username blob_name ts (i + 1)
        (texts ++ [t], metas ++ [⟨username, blob_name, i⟩],
         ids ++ [blob_name ++ "::" ++ toString i], some v)

/-- The store-independent part of `RAGService.ingest_csv_blob`, in source
order: (2) download the blob, (3) parse and chunk, (4) embed each chunk in
the loop, and the argument validation of step 5's
`collection.add(embeddings=vec, documents=texts, metadatas=metadatas,
ids=ids)`.  The add call passes the bare local `vec`: when the loop never
ran, reading `vec` raises `UnboundLocalError` (`nameError`); otherwise
ChromaDB normalizes the flat float list to the single embedding `[vec]` and
rejects the call (`addMismatch`) unless there is exactly one id. -/
def ingestAttempt (deps : Deps) (username blob_name : String)
    (rows_per_chunk : Int) :
    Except RagErr (List String × List EntryMeta × List String × Vec) :=
  match deps.readBlob blob_name with
  | .error e => .error e
  | .ok csv =>
    match deps.parseCsv csv with
    | .error e => .error e
    | .ok (cols, rows) =>
      match ingestLoop deps username blob_name
          (csv_rows_to_chunks cols rows rows_per_chunk) 1 ([], [], [], none) with
      | .error e => .error e
      | .ok (_, _, _, none) => .error .nameError
      | .ok (texts, metas, ids, some vec) =>
        if ids.length = 1 then .ok (texts, metas, ids, vec)
        else .error .addMismatch

/-- Embeds `RAGService.ingest_csv_blob`: (1) get/create the collection — the only
store access, performed first as in the source — then the store-independent
pipeline `ingestAttempt`; on success the validated entries are added to the
collection and the result dict is returned.  The store after a failure is
the post-step-1 store. -/
def ingest_csv_blob (deps : Deps) (store : Store) (username blob_name : String)
    (rows_per_chunk : Int) : Except RagErr IngestResult × Store :=
  let created := get_or_create_collection store username blob_name
  match ingestAttempt deps username blob_name rows_per_chunk with
  | .error e => (.error e, created.2)
  | .ok (texts, metas, ids, vec) =>
    (.ok ⟨created.1.name, texts.length⟩,
     created.2.map (updColl created.1.name
       ((ids.zip (texts.zip metas)).map (fun p => ⟨p.1, vec, p.2.1, p.2.2⟩))))

/- ----------------------------------------------------------------
Query answering (`RAGService.answer_with_rag`).
---------------------------------------------------------------- -/

/-- One context line: `f"[{file_name} | chunk {chunk_no}] {doc}"`. -/
def renderResult (r : SearchResult) : String :=
  "[" ++ r.metadata.file_name ++ " | chunk " ++ toString r.metadata.chunk_no ++ "] " ++ r.document

/-- Source: `context = "\n\n---\n".join(ctx_lines) if ctx_lines else "No relevant chunks found."` -/
def composeContext (results : List SearchResult) : String :=
  if results = [] then "No relevant chunks found."
  else String.intercalate "\n\n---\n" (results.map renderResult)

/-- Embeds `RAGService.answer_with_rag`: embed the question (raw client call, no
retry wrapper), search the user's collections, assemble the context, pass
`(question, context)` to the generation client. -/
def answer_with_rag (deps : Deps) (store : Store) (username question : String)
    (top_k : Nat) : Except RagErr String :=
  match deps.queryEmbed question with
  | .error e => .error e
  | .ok qv =>
    .ok (deps.llm question (composeContext (vector_search_user deps store username qv top_k)))

/- ----------------------------------------------------------------
Embedding retry wrapper (`AzureOpenAIChromaEmbeddings`, tenacity).
---------------------------------------------------------------- -/

/-- Source: `retry_if_exception_type(RateLimitError)`. -/
def isRateLimit : RagErr → Bool
  | .rateLimit => true
  | _ => false

/-- The configuration of one tenacity `@retry` decorator:
`wait_random_exponential(min=waitMin, max=waitMax)`, `stop_after_attempt(maxAttempts)`. -/
structure RetryPolicy where
  waitMin : ℚ
  waitMax : ℚ
  maxAttempts : Nat

/-- The decorator on `embed_documents`: wait between 1 and 10 seconds, at most 6 attempts. -/
def embedDocumentsPolicy : RetryPolicy := ⟨1, 10, 6⟩

/-- The decorator on `embed_query`: wait between 1 and 4 seconds, at most 3 attempts. -/
def embedQueryPolicy : RetryPolicy := ⟨1, 4, 3⟩

/-- Tenacity's retry loop: `call attempt` is the outcome of the given attempt
(0-based); a retryable failure is retried while attempts remain, a
non-retryable failure propagates unchanged, and exhausting the attempt
budget surfaces `RetryError` (`retryExhausted`). -/
def retryFrom (retryOn : RagErr → Bool) (call : Nat → Except RagErr α) :
    Nat → Nat → Except RagErr α
  | _, 0 => .error .retryExhausted
  | attempt, remaining + 1 =>
    match call attempt with
    | .ok v => .ok v
    | .error e =>
      if retryOn e then
        if remaining = 0 then .error .retryExhausted
        else retryFrom retryOn call (attempt + 1) remaining
      else .error e

/-- Embeds `AzureOpenAIChromaEmbeddings.embed_documents` under its `@retry` decorator;
`call n texts` is the outcome of the `n`-th underlying batch embedding call. -/
def embed_documents (call : Nat → List String → Except RagErr (List Vec))
    (texts : List String) : Except RagErr (List Vec) :=
  retryFrom isRateLimit (fun n => call n texts) 0 embedDocumentsPolicy.maxAttempts

/-- Embeds `AzureOpenAIChromaEmbeddings.embed_query` under its `@retry` decorator. -/
def embed_query (call : Nat → String → Except RagErr Vec) (text : String) :
    Except RagErr Vec :=
  retryFrom isRateLimit (fun n => call n text) 0 embedQueryPolicy.maxAttempts

/- ----------------------------------------------------------------
Chunker lemmas.
---------------------------------------------------------------- -/

lemma chunkLoop_nonpos (r : Int) (hr : r ≤ 0) (rest : List String) :
    ∀ acc, chunkLoop r acc [] rest = acc ++ rest.map (fun t => [t]) := by
  induction rest with
  | nil => intro acc; simp [chunkLoop]
  | cons t rest ih =>
    intro acc
    have hcond : r ≤ ((([] ++ [t] : List String).length : Int)) := by simp; omega
    rw [chunkLoop, if_pos hcond, ih]
    simp

lemma takeDropGroups_nil_iff (rn : Nat) (l : List α) :
    takeDropGroups rn l = [] ↔ l = [] := by
  cases l with
  | nil => simp [takeDropGroups]
  | cons x xs => rw [takeDropGroups]; simp

lemma takeDropGroups_append (rn : Nat) (hrn : 0 < rn) (g l : List α)
    (hg : g.length = rn) : takeDropGroups rn (g ++ l) = g :: takeDropGroups rn l := by
  cases g with
  | nil => simp at hg; omega
  | cons x g' =>
    have hg' : g'.length = rn - 1 := by simp at hg; omega
    rw [List.cons_append, takeDropGroups, ← hg', List.take_left, List.drop_left]

lemma chunkLoop_pos (r : Int) (hr : 1 ≤ r) (rest : List String) :
    ∀ (buf : List String) (acc : List (List String)), (buf.length : Int) < r →
      chunkLoop r acc buf rest = acc ++ takeDropGroups r.toNat (buf ++ rest) := by
  induction rest with
  | nil =>
    intro buf acc hb
    cases buf with
    | nil => simp [chunkLoop, takeDropGroups]
    | cons b bs =>
      have hbs : bs.length ≤ r.toNat - 1 := by simp at hb; omega
      rw [chunkLoop, if_neg (by simp), List.append_nil, takeDropGroups,
        List.take_of_length_le hbs, List.drop_of_length_le hbs]
      simp [takeDropGroups]
  | cons t rest ih =>
    intro buf acc hb
    by_cases hfull : r ≤ (((buf ++ [t]).length : Int))
    · have hlen : (buf ++ [t]).length = r.toNat := by simp at hfull hb ⊢; omega
      rw [chunkLoop, if_pos hfull, ih [] (acc ++ [buf ++ [t]]) (by simp; omega),
        show buf ++ t :: rest = (buf ++ [t]) ++ rest by simp,
        takeDropGroups_append r.toNat (by omega) _ _ hlen]
      simp
    · have hb' : ((buf ++ [t]).length : Int) < r := by omega
      rw [chunkLoop, if_neg hfull, ih (buf ++ [t]) acc hb']
      simp

/-- The grouping loop, for `rows_per_chunk ≥ 1`, is grouping by take/drop. -/
lemma chunkGroups_eq_takeDropGroups (r : Int) (hr : 1 ≤ r) (rows : List String) :
    chunkGroups r rows = takeDropGroups r.toNat rows := by
  rw [chunkGroups, chunkLoop_pos r hr rows [] [] (by simp; omega)]
  simp

/-- The grouping loop, for `rows_per_chunk ≤ 0`, flushes after every row. -/
lemma chunkGroups_nonpos (r : Int) (hr : r ≤ 0) (rows : List String) :
    chunkGroups r rows = rows.map (fun t => [t]) := by
  rw [chunkGroups, chunkLoop_nonpos r hr rows []]
  simp

lemma takeDropGroups_length (rn : Nat) (hrn : 0 < rn) : ∀ (l : List α),
    (takeDropGroups rn l).length = (l.length + rn - 1) / rn
  | [] => by
    rw [takeDropGroups]
    simp only [List.length_nil]
    rw [Nat.div_eq_of_lt (by omega)]
  | x :: xs => by
    rw [takeDropGroups]
    have ihh := takeDropGroups_length rn hrn (xs.drop (rn - 1))
    simp only [List.length_cons, List.length_drop] at ihh ⊢
    rw [ihh]
    rcases le_or_lt (rn - 1) xs.length with hge | hlt
    · have h1 : xs.length - (rn - 1) + rn - 1 = xs.length := by omega
      have h2 : xs.length + 1 + rn - 1 = xs.length + rn := by omega
      rw [h1, h2, Nat.add_div_right _ hrn, Nat.add_comm]
    · have h1 : xs.length - (rn - 1) = 0 := by omega
      have h2 : xs.length + 1 + rn - 1 = xs.length + rn := by omega
      rw [h1, h2, Nat.add_div_right _ hrn,
        Nat.div_eq_of_lt (show 0 + rn - 1 < rn by omega),
        Nat.div_eq_of_lt (show xs.length < rn by omega)]
termination_by l => l.length
decreasing_by simp [List.length_drop]; omega

lemma takeDropGroups_sizes (rn : Nat) (hrn : 0 < rn) : ∀ (l : List α),
    (∀ g ∈ (takeDropGroups rn l).dropLast, g.length = rn) ∧
    (∀ lg, (takeDropGroups rn l).getLast? = some lg →
        lg.length = if l.length % rn = 0 then rn else l.length % rn)
  | [] => by rw [takeDropGroups]; simp
  | x :: xs => by
    have ihh := takeDropGroups_sizes rn hrn (xs.drop (rn - 1))
    rw [takeDropGroups]
    rcases le_or_lt xs.length (rn - 1) with hle | hgt
    · rw [List.drop_of_length_le hle] at ihh ⊢
      rw [List.take_of_length_le hle, takeDropGroups]
      constructor
      · simp
      · intro lg hlg
        simp at hlg
        subst hlg
        simp only [List.length_cons]
        rcases Nat.lt_or_ge (xs.length + 1) rn with hlt | hge
        · rw [if_neg (by rw [Nat.mod_eq_of_lt hlt]; omega), Nat.mod_eq_of_lt hlt]
        · have hxeq : xs.length + 1 = rn := by omega
          rw [hxeq, if_pos (Nat.mod_self rn)]
    · have hne : takeDropGroups rn (xs.drop (rn - 1)) ≠ [] := by
        rw [Ne, takeDropGroups_nil_iff, List.drop_eq_nil_iff]
        omega
      rcases hgs : takeDropGroups rn (xs.drop (rn - 1)) with _ | ⟨g1, gs⟩
      · exact absurd hgs hne
      rw [hgs] at ihh
      constructor
      · intro g hg
        rw [List.dropLast_cons_of_ne_nil (by simp)] at hg
        rcases List.mem_cons.mp hg with hg0 | hgrest
        · subst hg0
          simp only [List.length_cons, List.length_take]
          omega
        · exact ihh.1 g hgrest
      · intro lg hlg
        rw [List.getLast?_cons_cons] at hlg
        have := ihh.2 lg hlg
        rw [List.length_drop] at this
        rw [this, List.length_cons,
          show xs.length - (rn - 1) = xs.length + 1 - rn by omega,
          ← Nat.mod_eq_sub_mod (by omega)]
termination_by l => l.length
decreasing_by simp [List.length_drop]; omega

/-- C7: for a parsable document and `rows_per_chunk = r ≥ 1`, the chunker's
row groups have exactly `r` rows each except possibly the last, the last
group has `row_count mod r` rows (`r` when the remainder is zero), the
group count is `⌈row_count / r⌉`, and the produced chunks are exactly the
newline joins of those groups. -/
theorem csv_rows_to_chunks_sizes (cols : List String) (rows : List (List String))
    (r : Int) (hr : 1 ≤ r) :
    csv_rows_to_chunks cols rows r
        = (chunkGroups r (rows.map (row_to_text cols))).map (String.intercalate "\n")
      ∧ (∀ g ∈ (chunkGroups r (rows.map (row_to_text cols))).dropLast,
          g.length = r.toNat)
      ∧ (∀ lg, (chunkGroups r (rows.map (row_to_text cols))).getLast? = some lg →
          lg.length = if rows.length % r.toNat = 0 then r.toNat
                      else rows.length % r.toNat)
      ∧ (chunkGroups r (rows.map (row_to_text cols))).length
          = (rows.length + r.toNat - 1) / r.toNat := by
  have hrn : 0 < r.toNat := by omega
  have hmap : (rows.map (row_to_text cols)).length = rows.length := List.length_map _ _
  rw [csv_rows_to_chunks, chunkGroups_eq_takeDropGroups r hr]
  have hsz := takeDropGroups_sizes r.toNat hrn (rows.map (row_to_text cols))
  have hlen := takeDropGroups_length r.toNat hrn (rows.map (row_to_text cols))
  rw [hmap] at hsz hlen
  exact ⟨rfl, hsz.1, hsz.2, hlen⟩

/-- C7 witness: 5 rows with `rows_per_chunk = 2` give groups of sizes 2, 2, 1
and chunk count `⌈5/2⌉ = 3`. -/
theorem csv_rows_to_chunks_sizes_witness :
    (1 : Int) ≤ 2
    ∧ (csv_rows_to_chunks ["c"] [["1"], ["2"], ["3"], ["4"], ["5"]] 2
        = (chunkGroups 2 ([["1"], ["2"], ["3"], ["4"], ["5"]].map (row_to_text ["c"]))).map
            (String.intercalate "\n")
      ∧ (∀ g ∈ (chunkGroups 2 ([["1"], ["2"], ["3"], ["4"], ["5"]].map (row_to_text ["c"]))).dropLast,
          g.length = (2 : Int).toNat)
      ∧ (∀ lg, (chunkGroups 2 ([["1"], ["2"], ["3"], ["4"], ["5"]].map (row_to_text ["c"]))).getLast?
            = some lg →
          lg.length = if [["1"], ["2"], ["3"], ["4"], ["5"]].length % (2 : Int).toNat = 0
                      then (2 : Int).toNat
                      else [["1"], ["2"], ["3"], ["4"], ["5"]].length % (2 : Int).toNat)
      ∧ (chunkGroups 2 ([["1"], ["2"], ["3"], ["4"], ["5"]].map (row_to_text ["c"]))).length
          = ([["1"], ["2"], ["3"], ["4"], ["5"]].length + (2 : Int).toNat - 1) / (2 : Int).toNat) :=
  ⟨by norm_num, csv_rows_to_chunks_sizes ["c"] [["1"], ["2"], ["3"], ["4"], ["5"]] 2 (by norm_num)⟩

/-- C10: for a document with at least one row and a non-positive
`rows_per_chunk`, the chunker raises no error and produces one chunk per
row, each group holding exactly one row. -/
theorem csv_rows_to_chunks_nonpos (cols : List String) (rows : List (List String))
    (r : Int) (hr : r ≤ 0) (_hne : rows ≠ []) :
    csv_rows_to_chunks cols rows r = rows.map (row_to_text cols)
    ∧ chunkGroups r (rows.map (row_to_text cols))
        = (rows.map (row_to_text cols)).map (fun t => [t]) := by
  have hgr := chunkGroups_nonpos r hr (rows.map (row_to_text cols))
  refine ⟨?_, hgr⟩
  rw [csv_rows_to_chunks, hgr, List.map_map]
  refine List.map_congr_left (fun row _ => ?_) |>.trans (List.map_id _)
  simp [String.intercalate, String.intercalate.go]

/-- C10 witness: one row, `rows_per_chunk = 0`. -/
theorem csv_rows_to_chunks_nonpos_witness :
    ((0 : Int) ≤ 0 ∧ ([["x"]] : List (List String)) ≠ [])
    ∧ (csv_rows_to_chunks ["c"] [["x"]] 0 = [["x"]].map (row_to_text ["c"])
      ∧ chunkGroups 0 ([["x"]].map (row_to_text ["c"]))
          = ([["x"]].map (row_to_text ["c"])).map (fun t => [t])) :=
  ⟨⟨le_refl 0, by simp⟩, csv_rows_to_chunks_nonpos ["c"] [["x"]] 0 (le_refl 0) (by simp)⟩

/- ----------------------------------------------------------------
Store lemmas.
---------------------------------------------------------------- -/

set_option maxRecDepth 100000

lemma addEntry_name (c : Collection) (e : Entry) : (addEntry c e).name = c.name := by
  unfold addEntry
  split <;> rfl

lemma addEntries_name (c : Collection) (es : List Entry) :
    (addEntries c es).name = c.name := by
  induction es generalizing c with
  | nil => rfl
  | cons e es ih =>
    show (addEntries (addEntry c e) es).name = c.name
    rw [ih (addEntry c e), addEntry_name]

lemma addEntry_idem (c : Collection) (e : Entry) :
    addEntry (addEntry c e) e = addEntry c e := by
  by_cases h : c.entries.any (fun x => x.id == e.id) = true
  · have hany2 : ((c.entries.map (fun x => if x.id == e.id then e else x)).any
        (fun x => x.id == e.id)) = true := by
      rw [List.any_eq_true] at h ⊢
      obtain ⟨x, hx, hid⟩ := h
      exact ⟨e, List.mem_map.mpr ⟨x, hx, by simp [hid]⟩, by simp⟩
    simp only [addEntry, h, if_true, hany2, List.map_map]
    congr 1
    apply List.map_congr_left
    intro x _
    simp only [Function.comp_apply]
    by_cases hid : x.id = e.id
    · simp [hid]
    · simp [hid]
  · have hfalse : (c.entries.any (fun x => x.id == e.id)) = false := by
      simpa using h
    have hany2 : ((c.entries ++ [e]).any (fun x => x.id == e.id)) = true := by simp
    simp only [addEntry, hfalse, Bool.false_eq_true, if_false, hany2, if_true,
      List.map_append]
    congr 1
    have h1 : c.entries.map (fun x => if x.id == e.id then e else x) = c.entries := by
      rw [List.any_eq_false] at hfalse
      exact (List.map_congr_left (fun x hx => by simp [hfalse x hx])).trans (List.map_id _)
    rw [h1]
    simp

lemma addEntries_single_idem (c : Collection) (E : List Entry) (hE : E.length ≤ 1) :
    addEntries (addEntries c E) E = addEntries c E := by
  match E, hE with
  | [], _ => rfl
  | [e], _ => exact addEntry_idem c e

lemma updColl_name (nm : String) (E : List Entry) (c : Collection) :
    (updColl nm E c).name = c.name := by
  unfold updColl
  split
  · exact addEntries_name c E
  · rfl

lemma updColl_idem (nm : String) (E : List Entry) (hE : E.length ≤ 1) (c : Collection) :
    updColl nm E (updColl nm E c) = updColl nm E c := by
  by_cases h : (c.name == nm) = true
  · have h3 : updColl nm E c = addEntries c E := by unfold updColl; rw [if_pos h]
    have h2 : ((addEntries c E).name == nm) = true := by rw [addEntries_name]; exact h
    rw [h3, updColl, if_pos h2]
    exact addEntries_single_idem c E hE
  · have h2 : updColl nm E c = c := by unfold updColl; rw [if_neg h]
    rw [h2, h2]

lemma get_or_create_fst_name (store : Store) (u f : String) :
    (get_or_create_collection store u f).1.name = user_collection_name u f := by
  unfold get_or_create_collection
  cases hf : store.find? (fun c => c.name == user_collection_name u f) with
  | none => simp [hf]
  | some c =>
    have hp := List.find?_some hf
    simp only [beq_iff_eq] at hp
    simp [hf, hp]

lemma get_or_create_mem (store : Store) (u f : String) :
    (get_or_create_collection store u f).1 ∈ (get_or_create_collection store u f).2 := by
  unfold get_or_create_collection
  cases hf : store.find? (fun c => c.name == user_collection_name u f) with
  | none => simp [hf]
  | some c => simp [hf, List.mem_of_find?_eq_some hf]

lemma get_or_create_of_mem (store : Store) (u f : String)
    (h : ∃ c ∈ store, c.name = user_collection_name u f) :
    ∃ c2, get_or_create_collection store u f = (c2, store)
      ∧ c2.name = user_collection_name u f := by
  unfold get_or_create_collection
  cases hf : store.find? (fun c => c.name == user_collection_name u f) with
  | none =>
    rw [List.find?_eq_none] at hf
    obtain ⟨c, hc, hcn⟩ := h
    exact absurd (by simp [hcn]) (hf c hc)
  | some c2 =>
    have hp := List.find?_some hf
    simp only [beq_iff_eq] at hp
    exact ⟨c2, by simp [hf], hp⟩

lemma get_or_create_snd (store : Store) (u f : String) :
    (get_or_create_collection store u f).2 = store
    ∨ (get_or_create_collection store u f).2
        = store ++ [⟨user_collection_name u f, ⟨u, f⟩, []⟩] := by
  unfold get_or_create_collection
  cases hf : store.find? (fun c => c.name == user_collection_name u f) with
  | none => right; simp [hf]
  | some c => left; simp [hf]

lemma ingestAttempt_ids_length (deps : Deps) (u b : String) (r : Int)
    (texts : List String) (metas : List EntryMeta) (ids : List String) (vec : Vec)
    (h : ingestAttempt deps u b r = .ok (texts, metas, ids, vec)) :
    ids.length = 1 := by
  unfold ingestAttempt at h
  repeat' split at h
  all_goals simp_all

/- ----------------------------------------------------------------
Concrete collaborators for evaluation.
---------------------------------------------------------------- -/

/-- Concrete collaborators whose parse result is fixed: the blob downloads,
parses to the given frame, every embedding call returns `[1]`, distance is
constantly `0`, and the generation client echoes its context. -/
def constParseDeps (cols : List String) (rows : List (List String)) : Deps where
  readBlob := fun _ => .ok "csv"
  parseCsv := fun _ => .ok (cols, rows)
  embedAt := fun _ _ => .ok [1]
  queryEmbed := fun _ => .ok [1]
  dist := fun _ _ => 0
  llm := fun _ c => c

/-- C2: ingesting a document that parses to zero rows does NOT return
`chunks_uploaded = 0`: the chunk loop never runs, the local `vec` is never
assigned, and `collection.add(embeddings=vec, ...)` raises
`UnboundLocalError`.  The code contradicts the spec's Scenario B. -/
theorem ingest_empty_doc_raises :
    ingest_csv_blob (constParseDeps ["a", "b"] []) [] "u" "f.csv" 100
      = (.error .nameError,
         [⟨"u_fcsv", ⟨"u", "f.csv"⟩, []⟩]) := by decide

/-- C4: a document yielding more than one chunk cannot be ingested: the
source passes the single last-chunk vector as `embeddings`, so ChromaDB's
length validation rejects the add call; no per-chunk (id, vector) pairing is
ever stored.  Here: two rows with `rows_per_chunk = 1` give two chunks. -/
theorem ingest_multichunk_raises :
    ingest_csv_blob (constParseDeps ["a"] [["1"], ["2"]]) [] "u" "f.csv" 1
      = (.error .addMismatch,
         [⟨"u_fcsv", ⟨"u", "f.csv"⟩, []⟩]) := by decide

/-- C3: re-ingestion is idempotent whenever ingestion succeeds: running
`ingest_csv_blob` again with the same arguments on the post-ingestion store
returns the same result dict (same collection name, same chunk count, hence
the same chunk id set) and leaves the store exactly unchanged — in
particular the collection's entry count does not grow. -/
theorem ingest_idempotent (deps : Deps) (store : Store) (u b : String) (r : Int)
    (out : IngestResult) (s1 : Store)
    (h : ingest_csv_blob deps store u b r = (.ok out, s1)) :
    ingest_csv_blob deps s1 u b r = (.ok out, s1) := by
  unfold ingest_csv_blob at h
  cases hatt : ingestAttempt deps u b r with
  | error e => rw [hatt] at h; exact absurd h (by simp)
  | ok payload =>
    obtain ⟨texts, metas, ids, vec⟩ := payload
    have hids := ingestAttempt_ids_length deps u b r texts metas ids vec hatt
    rw [hatt] at h
    simp only [Prod.mk.injEq, Except.ok.injEq] at h
    obtain ⟨hout, hs1⟩ := h
    have hname1 := get_or_create_fst_name store u b
    have hElen : ((ids.zip (texts.zip metas)).map
        (fun p => (⟨p.1, vec, p.2.1, p.2.2⟩ : Entry))).length ≤ 1 := by
      rw [List.length_map, List.length_zip]
      omega
    have hs1' : s1 = (get_or_create_collection store u b).2.map
        (updColl (user_collection_name u b)
          ((ids.zip (texts.zip metas)).map (fun p => ⟨p.1, vec, p.2.1, p.2.2⟩))) := by
      rw [← hs1, hname1]
    -- the post-run store still holds a collection with the deterministic name
    have hmem : ∃ c ∈ s1, c.name = user_collection_name u b := by
      refine ⟨updColl (user_collection_name u b)
          ((ids.zip (texts.zip metas)).map (fun p => ⟨p.1, vec, p.2.1, p.2.2⟩))
          (get_or_create_collection store u b).1, ?_, ?_⟩
      · rw [hs1']
        exact List.mem_map.mpr ⟨_, get_or_create_mem store u b, rfl⟩
      · rw [updColl_name]
        exact hname1
    obtain ⟨c2, hgc2, hc2name⟩ := get_or_create_of_mem s1 u b hmem
    unfold ingest_csv_blob
    rw [hgc2, hatt]
    simp only [Prod.mk.injEq, Except.ok.injEq]
    generalize hEgen : ((ids.zip (texts.zip metas)).map
      (fun p => (⟨p.1, vec, p.2.1, p.2.2⟩ : Entry))) = E at hElen hs1' ⊢
    constructor
    · rw [← hout, hname1, hc2name]
    · rw [hc2name, hs1', List.map_map]
      apply List.map_congr_left
      intro c _
      simp only [Function.comp_apply]
      exact updColl_idem (user_collection_name u b) E hElen c

/-- C3 witness: a one-row document ingests successfully, and the theorem
applies to that run. -/
theorem ingest_idempotent_witness :
    ingest_csv_blob (constParseDeps ["a"] [["1"]]) [] "u" "f.csv" 100
      = (.ok ⟨"u_fcsv", 1⟩,
         [⟨"u_fcsv", ⟨"u", "f.csv"⟩,
           [⟨"f.csv::1", [1], "a: 1", ⟨"u", "f.csv", 1⟩⟩]⟩])
    ∧ ingest_csv_blob (constParseDeps ["a"] [["1"]])
        [⟨"u_fcsv", ⟨"u", "f.csv"⟩,
           [⟨"f.csv::1", [1], "a: 1", ⟨"u", "f.csv", 1⟩⟩]⟩] "u" "f.csv" 100
      = (.ok ⟨"u_fcsv", 1⟩,
         [⟨"u_fcsv", ⟨"u", "f.csv"⟩,
           [⟨"f.csv::1", [1], "a: 1", ⟨"u", "f.csv", 1⟩⟩]⟩]) := by
  constructor
  · decide
  · exact ingest_idempotent (constParseDeps ["a"] [["1"]]) [] "u" "f.csv" 100 _ _ (by decide)

/- ----------------------------------------------------------------
C6: pre-upsert failures and the store.
---------------------------------------------------------------- -/

lemma ingest_error_store (deps : Deps) (store : Store) (u b : String) (r : Int)
    (e : RagErr) (s' : Store)
    (h : ingest_csv_blob deps store u b r = (.error e, s')) :
    s' = (get_or_create_collection store u b).2 := by
  unfold ingest_csv_blob at h
  cases hatt : ingestAttempt deps u b r with
  | error e' =>
    rw [hatt] at h
    simp only [Prod.mk.injEq] at h
    exact h.2.symm
  | ok payload =>
    obtain ⟨texts, metas, ids, vec⟩ := payload
    rw [hatt] at h
    exact absurd h (by simp)

lemma ingestAttempt_parse_error (deps : Deps) (u b : String) (r : Int)
    (csv : String) (pe : RagErr)
    (hread : deps.readBlob b = .ok csv) (hparse : deps.parseCsv csv = .error pe) :
    ingestAttempt deps u b r = .error pe := by
  unfold ingestAttempt
  rw [hread]
  simp only [hparse]

/-- C6: any failing ingestion leaves every previously existing collection
untouched (no entries written), and changes the store at most by appending
the empty collection created in step 1; moreover a parse failure at chunk
time means the embedding collaborator is never consulted — the outcome is
identical under any embedding client. -/
theorem ingest_prefail_frame (deps : Deps) (store : Store) (u b : String) (r : Int)
    (e : RagErr) (s' : Store)
    (h : ingest_csv_blob deps store u b r = (.error e, s')) :
    (s' = store ∨ s' = store ++ [⟨user_collection_name u b, ⟨u, b⟩, []⟩])
    ∧ (∀ c ∈ store, c ∈ s')
    ∧ (∀ (g : Nat → String → Except RagErr Vec) (csv : String) (pe : RagErr),
        deps.readBlob b = .ok csv → deps.parseCsv csv = .error pe →
        ingest_csv_blob { deps with embedAt := g } store u b r
          = ingest_csv_blob deps store u b r) := by
  have hs := ingest_error_store deps store u b r e s' h
  have halt := get_or_create_snd store u b
  rw [← hs] at halt
  refine ⟨halt, ?_, ?_⟩
  · intro c hc
    rcases halt with h1 | h1
    · rw [h1]; exact hc
    · rw [h1]; exact List.mem_append_left _ hc
  · intro g csv pe hread hparse
    have h1 : ingestAttempt { deps with embedAt := g } u b r = .error pe :=
      ingestAttempt_parse_error _ u b r csv pe hread hparse
    have h2 : ingestAttempt deps u b r = .error pe :=
      ingestAttempt_parse_error deps u b r csv pe hread hparse
    unfold ingest_csv_blob
    rw [h1, h2]

/-- Collaborators whose document cannot be parsed as CSV. -/
def parseFailDeps : Deps where
  readBlob := fun _ => .ok "not,a/valid\ncsv"
  parseCsv := fun _ => .error .parseError
  embedAt := fun _ _ => .ok [1]
  queryEmbed := fun _ => .ok [1]
  dist := fun _ _ => 0
  llm := fun _ c => c

/-- C6 counterexample: an ingestion failing at parse time does NOT leave the
index store in its prior state — `get_or_create_collection` runs before the
document is read, so a fresh (empty) collection has already been created. -/
theorem ingest_parse_error_creates_collection :
    ingest_csv_blob parseFailDeps [] "u" "f.csv" 100
      = (.error .parseError, [⟨"u_fcsv", ⟨"u", "f.csv"⟩, []⟩])
    ∧ ([⟨"u_fcsv", ⟨"u", "f.csv"⟩, []⟩] : Store) ≠ ([] : Store) := by
  exact ⟨by decide, by decide⟩

/-- C6 witness: the frame theorem applied to the concrete parse failure. -/
theorem ingest_prefail_frame_witness :
    ingest_csv_blob parseFailDeps [] "u" "f.csv" 100
      = (.error .parseError, [⟨"u_fcsv", ⟨"u", "f.csv"⟩, []⟩])
    ∧ (([⟨"u_fcsv", ⟨"u", "f.csv"⟩, []⟩] : Store) = []
        ∨ ([⟨"u_fcsv", ⟨"u", "f.csv"⟩, []⟩] : Store)
            = [] ++ [⟨user_collection_name "u" "f.csv", ⟨"u", "f.csv"⟩, []⟩])
    ∧ (∀ c ∈ ([] : Store), c ∈ ([⟨"u_fcsv", ⟨"u", "f.csv"⟩, []⟩] : Store))
    ∧ ingest_csv_blob { parseFailDeps with embedAt := fun _ _ => .error .apiError }
        [] "u" "f.csv" 100
      = ingest_csv_blob parseFailDeps [] "u" "f.csv" 100 := by
  have h : ingest_csv_blob parseFailDeps [] "u" "f.csv" 100
      = (.error .parseError, [⟨"u_fcsv", ⟨"u", "f.csv"⟩, []⟩]) := by decide
  have main := ingest_prefail_frame parseFailDeps [] "u" "f.csv" 100 .parseError
    [⟨"u_fcsv", ⟨"u", "f.csv"⟩, []⟩] h
  exact ⟨h, main.1, main.2.1,
    main.2.2 (fun _ _ => .error .apiError) "not,a/valid\ncsv" .parseError rfl rfl⟩

/- ----------------------------------------------------------------
C5: retry policy.
---------------------------------------------------------------- -/

lemma retryFrom_congr (p : RagErr → Bool) (f g : Nat → Except RagErr α) :
    ∀ (rem a : Nat), (∀ n, a ≤ n → n < a + rem → f n = g n) →
      retryFrom p f a rem = retryFrom p g a rem := by
  intro rem
  induction rem with
  | zero => intro a _; rfl
  | succ rem ih =>
    intro a hfg
    rw [retryFrom, retryFrom, hfg a (le_refl a) (by omega)]
    cases hga : g a with
    | ok v => rfl
    | error e =>
      by_cases hp : p e = true
      · by_cases hrem : rem = 0
        · simp [hp, hrem]
        · simp only [hp, if_true, hrem, if_false]
          exact ih (a + 1) (fun n h1 h2 => hfg n (by omega) (by omega))
      · simp [hp]

/-- C5 (amended): the tenacity policies on the ChromaDAL embedding wrapper
are as specified (batch: 6 attempts, 1–10 s jitter window; single query: 3
attempts, 1–4 s window); the wrapped calls retry rate-limit failures —
twice-rate-limited-then-ok succeeds on the third attempt — and only
rate-limit failures; the attempt budget bounds the calls made (the outcome
depends only on the first `maxAttempts` outcomes).  But `ingest_csv_blob`
embeds through the bare client, so a rate-limit failure on its first
embedding call aborts the whole ingestion. -/
theorem embedding_retry_policy
    (call call' : Nat → List String → Except RagErr (List Vec))
    (qcall : Nat → String → Except RagErr Vec)
    (texts : List String) (q : String) (v : List Vec) (w : Vec) (e : RagErr)
    (deps : Deps) (store : Store) (u b : String) (r : Int)
    (csv : String) (cols : List String) (rows : List (List String)) :
    (embedDocumentsPolicy.maxAttempts = 6 ∧ embedDocumentsPolicy.waitMin = 1
      ∧ embedDocumentsPolicy.waitMax = 10 ∧ embedQueryPolicy.maxAttempts = 3
      ∧ embedQueryPolicy.waitMin = 1 ∧ embedQueryPolicy.waitMax = 4)
    ∧ (call 0 texts = .error .rateLimit → call 1 texts = .error .rateLimit →
        call 2 texts = .ok v → embed_documents call texts = .ok v)
    ∧ (qcall 0 q = .error .rateLimit → qcall 1 q = .error .rateLimit →
        qcall 2 q = .ok w → embed_query qcall q = .ok w)
    ∧ (isRateLimit e = false → call 0 texts = .error e →
        embed_documents call texts = .error e)
    ∧ (isRateLimit e = false → qcall 0 q = .error e →
        embed_query qcall q = .error e)
    ∧ ((∀ n, n < 6 → call n texts = call' n texts) →
        embed_documents call texts = embed_documents call' texts)
    ∧ ((∀ t, deps.embedAt 0 t = .error .rateLimit) →
        deps.readBlob b = .ok csv → deps.parseCsv csv = .ok (cols, rows) →
        rows ≠ [] →
        ingest_csv_blob deps store u b r
          = (.error .rateLimit, (get_or_create_collection store u b).2)) := by
  refine ⟨⟨rfl, rfl, rfl, rfl, rfl, rfl⟩, ?_, ?_, ?_, ?_, ?_, ?_⟩
  · intro h0 h1 h2
    unfold embed_documents
    show retryFrom isRateLimit _ 0 6 = _
    rw [retryFrom, h0]
    simp only [isRateLimit, if_true]
    rw [if_neg (by omega), retryFrom, h1]
    simp only [isRateLimit, if_true]
    rw [if_neg (by omega), retryFrom, h2]
  · intro h0 h1 h2
    unfold embed_query
    show retryFrom isRateLimit _ 0 3 = _
    rw [retryFrom, h0]
    simp only [isRateLimit, if_true]
    rw [if_neg (by omega), retryFrom, h1]
    simp only [isRateLimit, if_true]
    rw [if_neg (by omega), retryFrom, h2]
  · intro he h0
    unfold embed_documents
    show retryFrom isRateLimit _ 0 6 = _
    rw [retryFrom, h0]
    simp [he]
  · intro he h0
    unfold embed_query
    show retryFrom isRateLimit _ 0 3 = _
    rw [retryFrom, h0]
    simp [he]
  · intro hcc
    exact retryFrom_congr isRateLimit _ _ 6 0 (fun n _ h2 => hcc n (by omega))
  · intro hembed hread hparse hrows
    have hchunks : csv_rows_to_chunks cols rows r ≠ [] := by
      unfold csv_rows_to_chunks
      rcases le_or_lt r 0 with hr | hr
      · rw [chunkGroups_nonpos r hr]
        simp [hrows]
      · rw [chunkGroups_eq_takeDropGroups r (by omega)]
        simp only [ne_eq, List.map_eq_nil_iff, takeDropGroups_nil_iff]
        simp [hrows]
    obtain ⟨t, ts, hts⟩ := List.exists_cons_of_ne_nil hchunks
    have hloop : ingestLoop deps u b (t :: ts) 1 ([], [], [], none)
        = .error .rateLimit := by
      unfold ingestLoop
      simp only [show (1 : Nat) - 1 = 0 from rfl, hembed t]
    have hatt : ingestAttempt deps u b r = .error .rateLimit := by
      unfold ingestAttempt
      rw [hread]
      simp only [hparse, hts, hloop]
    unfold ingest_csv_blob
    rw [hatt]

/-- Collaborators whose embedding endpoint rate-limits the first two calls
and succeeds from the third call on. -/
def flakyDeps : Deps where
  readBlob := fun _ => .ok "csv"
  parseCsv := fun _ => .ok (["a"], [["1"]])
  embedAt := fun n _ => if n ≤ 1 then .error .rateLimit else .ok [1]
  queryEmbed := fun _ => .ok [1]
  dist := fun _ _ => 0
  llm := fun _ c => c

/-- C5 counterexample: the embedding endpoint rate-limits twice and would
succeed on the third attempt, yet ingestion does NOT complete successfully —
`ingest_csv_blob` calls the bare client (not the retrying wrapper), so the
first rate-limit error aborts it. -/
theorem ingest_rate_limit_not_retried :
    flakyDeps.embedAt 0 "a: 1" = .error .rateLimit
    ∧ flakyDeps.embedAt 1 "a: 1" = .error .rateLimit
    ∧ flakyDeps.embedAt 2 "a: 1" = .ok [1]
    ∧ ingest_csv_blob flakyDeps [] "u" "f.csv" 100
        = (.error .rateLimit, [⟨"u_fcsv", ⟨"u", "f.csv"⟩, []⟩]) := by
  exact ⟨by decide, by decide, by decide, by decide⟩

/-- C5 witness: the policy theorem applied to the concrete flaky client. -/
theorem embedding_retry_policy_witness :
    embed_documents (fun n _ => if n ≤ 1 then .error .rateLimit else .ok [[1]]) ["t"]
      = .ok [[1]]
    ∧ embed_query (fun n _ => if n ≤ 1 then .error .rateLimit else .ok [1]) "q"
      = .ok [1]
    ∧ embed_documents (fun _ _ => .error .apiError) ["t"] = .error .apiError
    ∧ embed_query (fun _ _ => .error .apiError) "q" = .error .apiError
    ∧ embed_documents (fun n _ => if n ≤ 1 then .error .rateLimit else .ok [[1]]) ["t"]
      = embed_documents
          (fun n _ => if n ≤ 1 then .error .rateLimit
                      else if n ≥ 6 then .error .apiError else .ok [[1]]) ["t"]
    ∧ ingest_csv_blob flakyDeps [] "u" "f.csv" 100
        = (.error .rateLimit, (get_or_create_collection [] "u" "f.csv").2) := by
  have main1 := embedding_retry_policy
    (fun n _ => if n ≤ 1 then .error .rateLimit else .ok [[1]])
    (fun n _ => if n ≤ 1 then .error .rateLimit
                else if n ≥ 6 then .error .apiError else .ok [[1]])
    (fun n _ => if n ≤ 1 then .error .rateLimit else .ok [1])
    ["t"] "q" [[1]] [1] .apiError flakyDeps [] "u" "f.csv" 100 "csv" ["a"] [["1"]]
  have main2 := embedding_retry_policy
    (fun _ _ => .error .apiError)
    (fun _ _ => .error .apiError)
    (fun _ _ => .error .apiError)
    ["t"] "q" [[1]] [1] .apiError flakyDeps [] "u" "f.csv" 100 "csv" ["a"] [["1"]]
  refine ⟨main1.2.1 (by decide) (by decide) (by decide),
    main1.2.2.1 (by decide) (by decide) (by decide),
    main2.2.2.2.1 (by decide) (by decide),
    main2.2.2.2.2.1 (by decide) (by decide),
    main1.2.2.2.2.2.1 (by decide),
    main1.2.2.2.2.2.2 (fun _ => rfl) rfl rfl (by simp)⟩

/- ----------------------------------------------------------------
C1: retrieval scoping.
---------------------------------------------------------------- -/

instance : IsTotal SearchResult scoreGe := ⟨fun a b => le_total b.score a.score⟩

instance : IsTrans SearchResult scoreGe := ⟨fun _ _ _ h1 h2 => le_trans h2 h1⟩

lemma vector_search_user_mem (deps : Deps) (store : Store) (u : String)
    (qv : Vec) (k : Nat) (res : SearchResult)
    (h : res ∈ vector_search_user deps store u qv k) :
    ∃ c ∈ store, strStartsWith c.name (userSearchPref u) = true
      ∧ ∃ e ∈ c.entries, res.document = e.document ∧ res.metadata = e.metadata
          ∧ res.score = 1 - deps.dist qv e.embedding := by
  unfold vector_search_user at h
  have h1 := List.mem_of_mem_take h
  rw [List.mem_insertionSort, List.mem_flatMap] at h1
  obtain ⟨c, hc, hres⟩ := h1
  rw [List.mem_filter] at hc
  refine ⟨c, hc.1, hc.2, ?_⟩
  unfold queryCollection at hres
  rw [List.mem_map] at hres
  obtain ⟨e, he, heq⟩ := hres
  have he2 : e ∈ c.entries := by
    have hmem := List.mem_of_mem_take he
    rwa [List.mem_insertionSort] at hmem
  exact ⟨e, he2, by rw [← heq], by rw [← heq], by rw [← heq]⟩

/-- C1 (amended): retrieval returns at most `k` results, and every result
comes from a collection whose name starts with the querying user's sanitized
prefix; this is prefix scoping, not ownership — two users whose sanitized
names are prefix-related can see each other's entries. -/
theorem vector_search_user_scoped (deps : Deps) (store : Store) (u : String)
    (qv : Vec) (k : Nat) :
    (vector_search_user deps store u qv k).length ≤ k
    ∧ ∀ (i : Nat) (hi : i < (vector_search_user deps store u qv k).length),
        ∃ c ∈ store, strStartsWith c.name (userSearchPref u) = true
          ∧ ∃ e ∈ c.entries,
              ((vector_search_user deps store u qv k).get ⟨i, hi⟩).document = e.document
              ∧ ((vector_search_user deps store u qv k).get ⟨i, hi⟩).metadata = e.metadata
              ∧ ((vector_search_user deps store u qv k).get ⟨i, hi⟩).score
                  = 1 - deps.dist qv e.embedding := by
  constructor
  · unfold vector_search_user
    rw [List.length_take]
    exact min_le_left _ _
  · exact fun i hi => vector_search_user_mem deps store u qv k _ (List.get_mem _ _ _)

/-- C1 counterexample: user `alice_b` ingests a document; a retrieval by the
distinct user `alice` returns that entry — `alice_b_fcsv` starts with
`alice`'s prefix — so retrieval does return a result from another user's
collection, ingested by the other user. -/
theorem vector_search_user_cross_user_leak :
    ingest_csv_blob (constParseDeps ["a"] [["1"]]) [] "alice_b" "f.csv" 100
      = (.ok ⟨"alice_b_fcsv", 1⟩,
         [⟨"alice_b_fcsv", ⟨"alice_b", "f.csv"⟩,
           [⟨"f.csv::1", [1], "a: 1", ⟨"alice_b", "f.csv", 1⟩⟩]⟩])
    ∧ (vector_search_user (constParseDeps ["a"] [["1"]])
        [⟨"alice_b_fcsv", ⟨"alice_b", "f.csv"⟩,
          [⟨"f.csv::1", [1], "a: 1", ⟨"alice_b", "f.csv", 1⟩⟩]⟩] "alice" [1] 5).map
        SearchResult.metadata
      = [⟨"alice_b", "f.csv", 1⟩]
    ∧ (vector_search_user (constParseDeps ["a"] [["1"]])
        [⟨"alice_b_fcsv", ⟨"alice_b", "f.csv"⟩,
          [⟨"f.csv::1", [1], "a: 1", ⟨"alice_b", "f.csv", 1⟩⟩]⟩] "alice" [1] 5).map
        SearchResult.document
      = ["a: 1"]
    ∧ ("alice_b" : String) ≠ "alice" := by
  exact ⟨by decide, by decide, by decide, by decide⟩

/-- C1 witness: the scoping theorem applied to a concrete store at index 0. -/
theorem vector_search_user_scoped_witness :
    (vector_search_user (constParseDeps ["a"] [["1"]])
        [⟨"u_fcsv", ⟨"u", "f.csv"⟩,
          [⟨"f.csv::1", [1], "a: 1", ⟨"u", "f.csv", 1⟩⟩]⟩] "u" [1] 5).length ≤ 5
    ∧ 0 < (vector_search_user (constParseDeps ["a"] [["1"]])
        [⟨"u_fcsv", ⟨"u", "f.csv"⟩,
          [⟨"f.csv::1", [1], "a: 1", ⟨"u", "f.csv", 1⟩⟩]⟩] "u" [1] 5).length
    ∧ ∃ c ∈ ([⟨"u_fcsv", ⟨"u", "f.csv"⟩,
          [⟨"f.csv::1", [1], "a: 1", ⟨"u", "f.csv", 1⟩⟩]⟩] : Store),
        strStartsWith c.name (userSearchPref "u") = true
          ∧ ∃ e ∈ c.entries,
              ((vector_search_user (constParseDeps ["a"] [["1"]])
                [⟨"u_fcsv", ⟨"u", "f.csv"⟩,
                  [⟨"f.csv::1", [1], "a: 1", ⟨"u", "f.csv", 1⟩⟩]⟩] "u" [1] 5).get
                  ⟨0, by decide⟩).document = e.document
              ∧ ((vector_search_user (constParseDeps ["a"] [["1"]])
                [⟨"u_fcsv", ⟨"u", "f.csv"⟩,
                  [⟨"f.csv::1", [1], "a: 1", ⟨"u", "f.csv", 1⟩⟩]⟩] "u" [1] 5).get
                  ⟨0, by decide⟩).metadata = e.metadata
              ∧ ((vector_search_user (constParseDeps ["a"] [["1"]])
                [⟨"u_fcsv", ⟨"u", "f.csv"⟩,
                  [⟨"f.csv::1", [1], "a: 1", ⟨"u", "f.csv", 1⟩⟩]⟩] "u" [1] 5).get
                  ⟨0, by decide⟩).score
                  = 1 - (constParseDeps ["a"] [["1"]]).dist [1] e.embedding := by
  have main := vector_search_user_scoped (constParseDeps ["a"] [["1"]])
    [⟨"u_fcsv", ⟨"u", "f.csv"⟩, [⟨"f.csv::1", [1], "a: 1", ⟨"u", "f.csv", 1⟩⟩]⟩]
    "u" [1] 5
  exact ⟨main.1, by decide, main.2 0 (by decide)⟩

/- ----------------------------------------------------------------
C9: context assembly.
---------------------------------------------------------------- -/

/-- C9: query answering renders each retrieved result, in descending-score
order, as `"[{document_path} | chunk {chunk_no}] {text}"` joined by the
visible separator, and with zero retrieved chunks it passes the literal
marker `"No relevant chunks found."` to the generation client. -/
theorem answer_with_rag_context (deps : Deps) (store : Store) (u question : String)
    (top_k : Nat) (qv : Vec) (hq : deps.queryEmbed question = .ok qv) :
    answer_with_rag deps store u question top_k
      = .ok (deps.llm question
          (composeContext (vector_search_user deps store u qv top_k)))
    ∧ List.Sorted scoreGe (vector_search_user deps store u qv top_k)
    ∧ composeContext ([] : List SearchResult) = "No relevant chunks found."
    ∧ ∀ rs : List SearchResult, rs ≠ [] →
        composeContext rs = String.intercalate "\n\n---\n" (rs.map renderResult) := by
  refine ⟨?_, ?_, rfl, ?_⟩
  · unfold answer_with_rag
    rw [hq]
  · unfold vector_search_user
    exact List.Pairwise.sublist (List.take_sublist _ _)
      (List.sorted_insertionSort scoreGe _)
  · intro rs hrs
    unfold composeContext
    rw [if_neg hrs]

/-- C9 witness: concrete query answering over a one-entry store, plus the
zero-chunk marker at a concrete non-empty result list. -/
theorem answer_with_rag_context_witness :
    answer_with_rag (constParseDeps ["a"] [["1"]])
        [⟨"u_fcsv", ⟨"u", "f.csv"⟩,
          [⟨"f.csv::1", [1], "a: 1", ⟨"u", "f.csv", 1⟩⟩]⟩] "u" "q" 5
      = .ok ((constParseDeps ["a"] [["1"]]).llm "q"
          (composeContext (vector_search_user (constParseDeps ["a"] [["1"]])
            [⟨"u_fcsv", ⟨"u", "f.csv"⟩,
              [⟨"f.csv::1", [1], "a: 1", ⟨"u", "f.csv", 1⟩⟩]⟩] "u" [1] 5)))
    ∧ List.Sorted scoreGe (vector_search_user (constParseDeps ["a"] [["1"]])
        [⟨"u_fcsv", ⟨"u", "f.csv"⟩,
          [⟨"f.csv::1", [1], "a: 1", ⟨"u", "f.csv", 1⟩⟩]⟩] "u" [1] 5)
    ∧ composeContext ([] : List SearchResult) = "No relevant chunks found."
    ∧ composeContext [⟨"a: 1", ⟨"u", "f.csv", 1⟩, 1⟩]
        = String.intercalate "\n\n---\n"
            (([⟨"a: 1", ⟨"u", "f.csv", 1⟩, 1⟩] : List SearchResult).map renderResult) := by
  have main := answer_with_rag_context (constParseDeps ["a"] [["1"]])
    [⟨"u_fcsv", ⟨"u", "f.csv"⟩, [⟨"f.csv::1", [1], "a: 1", ⟨"u", "f.csv", 1⟩⟩]⟩]
    "u" "q" 5 [1] rfl
  exact ⟨main.1, main.2.1, main.2.2.1,
    main.2.2.2 [⟨"a: 1", ⟨"u", "f.csv", 1⟩, 1⟩] (by simp)⟩

/- ----------------------------------------------------------------
C8: collection naming.
---------------------------------------------------------------- -/

/-- Modelled from the spec (§4.3 collection naming), for comparison only:
sanitization keeps alphanumerics, `_`, `-`, collapses each whitespace run to
a single `_`, and replaces every other character (path separators, `@`, ...)
with `_`.  The flag tracks whether the previous character was whitespace. -/
def specSanitizeAux : Bool → List Char → List Char
  | _, [] => []
  | prevWs, c :: cs =>
    if c.isWhitespace then
      (if prevWs then [] else ['_']) ++ specSanitizeAux true cs
    else if c.isAlphanum || c = '_' || c = '-' then c :: specSanitizeAux false cs
    else '_' :: specSanitizeAux false cs

/-- Modelled from the spec: the sanitizer of §4.3 on a string. -/
def specSanitize (s : String) : String := (specSanitizeAux false s.toList).asString

/-- Modelled from the spec: `sanitize(username) + "_" + sanitize(document_basename)`
truncated last, after concatenation, to the maximum identifier length (63). -/
def specCollectionName (u f : String) : String :=
  (specSanitize u ++ "_" ++ specSanitize f).take 63

lemma stripChars_subset (l : List Char) (c : Char) (hc : c ∈ stripChars l) :
    c ∈ l := by
  unfold stripChars at hc
  rw [List.mem_reverse] at hc
  have h1 := (List.dropWhile_sublist _).subset hc
  rw [List.mem_reverse] at h1
  exact (List.dropWhile_sublist _).subset h1

lemma string_take_length_le (s : String) (n : Nat) : (s.take n).length ≤ n := by
  rw [String.take_eq]
  show (s.data.take n).length ≤ n
  rw [List.length_take]
  exact min_le_left _ _

/-- C8 (amended): the implemented collection name is the concatenation
`sanitizeUser(username) + "_" + sanitizeFileName(file_name)` truncated last
(after concatenation) to 63 characters; the FILE-NAME side keeps only
alphanumerics, `_`, `-` (whitespace and every other character is removed,
not replaced); the USERNAME side only lowercases, strips, and replaces `@`
and space with `_` — all its other characters (path separators included)
are kept verbatim. -/
theorem user_collection_name_props (u f : String) :
    user_collection_name u f = (sanitizeUser u ++ "_" ++ sanitizeFileName f).take 63
    ∧ (user_collection_name u f).length ≤ 63
    ∧ (∀ c ∈ (sanitizeFileName f).toList, keepChar c = true ∧ c ≠ ' ')
    ∧ (∀ c ∈ (sanitizeUser u).toList, c ≠ '@' ∧ c ≠ ' ') := by
  refine ⟨rfl, string_take_length_le _ 63, ?_, ?_⟩
  · intro c hc
    unfold sanitizeFileName at hc
    rw [show (((stripChars (f.toList.filter keepChar)).map
        (fun c => if c = ' ' then '_' else c)).asString).toList
      = (stripChars (f.toList.filter keepChar)).map
          (fun c => if c = ' ' then '_' else c) from rfl] at hc
    rw [List.mem_map] at hc
    obtain ⟨d, hd, hdc⟩ := hc
    have hdf := stripChars_subset _ d hd
    rw [List.mem_filter] at hdf
    have hkeep : keepChar d = true := hdf.2
    have hdne : d ≠ ' ' := by
      intro hsp
      rw [hsp] at hkeep
      exact absurd hkeep (by decide)
    rw [if_neg hdne] at hdc
    rw [← hdc]
    exact ⟨hkeep, hdne⟩
  · intro c hc
    unfold sanitizeUser at hc
    rw [show ((((stripChars u.toList).map Char.toLower).map
        (fun c => if c = '@' then '_' else if c = ' ' then '_' else c)).asString).toList
      = ((stripChars u.toList).map Char.toLower).map
          (fun c => if c = '@' then '_' else if c = ' ' then '_' else c) from rfl] at hc
    rw [List.mem_map] at hc
    obtain ⟨d, _, hdc⟩ := hc
    rw [← hdc]
    by_cases h1 : d = '@'
    · simp [h1]
    · by_cases h2 : d = ' '
      · simp [h1, h2]
      · simp [h1, h2]

/-- C8 counterexample: for username `a/b` the implementation keeps the path
separator, while the spec's sanitize-everything rule would produce `a_b_f`;
the two naming functions disagree. -/
theorem user_collection_name_spec_mismatch :
    user_collection_name "a/b" "f" = "a/b_f"
    ∧ specCollectionName "a/b" "f" = "a_b_f"
    ∧ user_collection_name "a/b" "f" ≠ specCollectionName "a/b" "f" := by
  exact ⟨by decide, by decide, by decide⟩

/-- C8 witness: the naming-properties theorem applied to concrete inputs. -/
theorem user_collection_name_props_witness :
    user_collection_name "A b@c" "x/y z.csv"
      = (sanitizeUser "A b@c" ++ "_" ++ sanitizeFileName "x/y z.csv").take 63
    ∧ (user_collection_name "A b@c" "x/y z.csv").length ≤ 63
    ∧ (keepChar 'x' = true ∧ 'x' ≠ ' ')
    ∧ ('a' ≠ '@' ∧ 'a' ≠ ' ') := by
  have main := user_collection_name_props "A b@c" "x/y z.csv"
  exact ⟨main.1, main.2.1, main.2.2.1 'x' (by decide), main.2.2.2 'a' (by decide)⟩
